import Mathlib
/-!
Shallow embedding of `python/anvill/ida.py`: the IDA-to-anvill type
conversion engine (`_convert_ida_type`), the `get_type` dispatcher, the
function registry (`get_function`), and architecture detection
(`_guess_architecture` / `get_arch`).

Python objects live in an explicit heap (`Heap`): every constructed IR
node receives a fresh numeric id, so Python object identity is node-id
equality, and the mutating setters (`set_element_type`, ...) are heap
updates.  A foreign IDA `tinfo_t` handle is an index into a foreign type
database (`List FTy`); the capability predicates the source queries
(`is_ptr`, `is_uint128`, ...) are recorded by the constructor and flag
fields of the handle's `FTy` entry.  Recursion is fuelled:
`convert_ida_type db fuel` — the Python function has no fuel, so
`ErrInfo.outOfFuel` (and `ErrInfo.badHandle`, a dangling database index,
which cannot arise for real Python objects) are artifacts of the
embedding, distinct from the real `UnhandledTypeException`.
-/

/-- The anvill IR node classes from `anvill/type.py` (only their data
shape is consumed by `ida.py`).  Fields that the source assigns after
construction (`set_element_type`, `set_return_type`, ...) are `Option`s
that start out `none`.  Child references are heap node ids. -/
inductive Node where
  | VoidType
  | BoolType
  | IntegerType (size : Nat) (is_signed : Bool)
  | FloatingPointType (size : Nat)
  | PointerType (element : Option Nat)
  | ArrayType (element : Option Nat) (nelems : Nat)
  | VectorType (element : Option Nat) (nelems : Nat)
  | FunctionType (rettype : Option Nat) (params : List Nat)
      (is_vararg : Bool) (bytes_popped : Option Nat)
  | StructureType (members : List Nat)
  | UnionType (members : List Nat)
  | EnumType (underlying : Option Nat)
  | TypedefType (underlying : Option Nat)
  deriving DecidableEq, Repr
/-- Results of the ten integer-classification capability queries on an
integral `tinfo_t` (`is_uint128` ... `is_char`, lines 172-191).  They are
independent capabilities of the foreign handle, so they are modelled as
ten independent flags; the source decides behaviour purely from them. -/
structure IntFlags where
  is_uint128 : Bool
  is_int128 : Bool
  is_uint64 : Bool
  is_int64 : Bool
  is_uint32 : Bool
  is_int32 : Bool
  is_uint16 : Bool
  is_int16 : Bool
  is_uchar : Bool
  is_char : Bool
  deriving DecidableEq, Repr
/-- Results of the floating-point classification queries
(`is_ldouble` / `is_double` / `is_float`) together with the
`get_unpadded_size` answer used in the long-double case. -/
structure FloatFlags where
  is_ldouble : Bool
  is_double : Bool
  is_float : Bool
  unpadded_size : Nat
  deriving DecidableEq, Repr
/-- One foreign `tinfo_t`, classified by the capability predicates that
`_convert_ida_type` queries, in the source's own grouping: `is_paf`
splits into `is_ptr` / `is_func` / `is_array` / neither (`paf_other`),
`is_sue` into struct / union (`is_udt`), enum, or neither (`sue_other`).
Child types are handles (database indices); `name` records the `dstr()`
diagnostic string used in exception messages. -/
inductive FTy where
  | void
  | ptr (pointee : Nat)
  | func (rettype : Nat) (args : List Nat) (is_vararg_cc : Bool)
      (is_purging_cc : Bool) (purged_bytes : Nat)
  | array (element : Nat) (nelems : Nat)
  | paf_other (name : String)
  | sse (size : Nat)
  | struct_ (members : List Nat) (nmembers : Nat)
  | union_ (members : List Nat) (nmembers : Nat)
  | enum (base : Nat)
  | sue_other (name : String)
  | bool_
  | integral (flags : IntFlags) (name : String)
  | floating (flags : FloatFlags) (name : String)
  | complex_ (name : String)
  | typeref (realtype : Nat)
  | other (name : String)
  deriving DecidableEq, Repr
/-- The error conditions `_convert_ida_type` can signal.  `unhandled`
is the real `UnhandledTypeException(description, ty)`; `outOfFuel` and
`badHandle` are artifacts of the fuelled embedding (see the module
comment) and never correspond to a Python-level behaviour. -/
inductive ErrInfo where
  | unhandled (msg : String) (handle : Nat)
  | outOfFuel
  | badHandle (handle : Nat)
  deriving DecidableEq, Repr
/-- The Python object space: node ids mapped to their current `Node`
value, plus the next fresh id. -/
structure Heap where
  nodes : List (Nat × Node)
  next : Nat
  deriving DecidableEq, Repr
/-- The per-call conversion cache (the `cache` dict): foreign handle to
the id of the IR node already built for it. -/
abbrev Cache := List (Nat × Nat)
abbrev Res := Except ErrInfo Nat × Cache × Heap
abbrev ResL := Except ErrInfo (List Nat) × Cache × Heap
/-- Association-list lookup (Python `d[k]` together with `k in d`). -/
def lookupA {α : Type} : List (Nat × α) → Nat → Option α
  | [], _ => none
  | (k, v) :: r, a => if k = a then some v else lookupA r a
/-- Allocate a fresh node (a Python constructor call). -/
def pushNode (hp : Heap) (nd : Node) : Heap :=
  ⟨(hp.next, nd) :: hp.nodes, hp.next + 1⟩
/-- Overwrite the node stored at id `n` (a Python setter call). -/
def setNode (hp : Heap) (n : Nat) (nd : Node) : Heap :=
  ⟨hp.nodes.map (fun p => if p.1 = n then (p.1, nd) else p), hp.next⟩
/-- Lines 171-193: the integral classification chain, an if/elif ladder
over the ten width/signedness predicates, first true predicate wins;
no predicate true raises `UnhandledTypeException`. -/
def convert_integral (fl : IntFlags) (nm : String) (h : Nat) :
    Except ErrInfo Node :=
  if fl.is_uint128 then .ok (.IntegerType 16 false)
  else if fl.is_int128 then .ok (.IntegerType 16 true)
  else if fl.is_uint64 then .ok (.IntegerType 8 false)
  else if fl.is_int64 then .ok (.IntegerType 8 true)
  else if fl.is_uint32 then .ok (.IntegerType 4 false)
  else if fl.is_int32 then .ok (.IntegerType 4 true)
  else if fl.is_uint16 then .ok (.IntegerType 2 false)
  else if fl.is_int16 then .ok (.IntegerType 2 true)
  else if fl.is_uchar then .ok (.IntegerType 1 false)
  else if fl.is_char then .ok (.IntegerType 1 true)
  else .error (.unhandled ("Unhandled integral type: " ++ nm) h)
/-- Lines 196-205: the floating-point classification chain; long double
uses the native `get_unpadded_size` query, double is 8 bytes, float 4. -/
def convert_floating (fl : FloatFlags) (nm : String) (h : Nat) :
    Except ErrInfo Node :=
  if fl.is_ldouble then .ok (.FloatingPointType fl.unpadded_size)
  else if fl.is_double then .ok (.FloatingPointType 8)
  else if fl.is_float then .ok (.FloatingPointType 4)
  else .error (.unhandled ("Unhandled floating point type: " ++ nm) h)
/-- The shared shape of the pointer (91-94), array (115-119), enum
(156-160) and typedef (213-216) cases of `_convert_ida_type`: construct
the node, insert it into the cache keyed by the foreign handle BEFORE
recursing into the single child, then set the child field. -/
def buildWithChild (h : Nat) (mk : Option Nat → Node) (child : Nat)
    (rec : Nat → Cache → Heap → Res) (c : Cache) (hp : Heap) : Res :=
  let n := hp.next
  let hp1 := pushNode hp (mk none)
  let c1 := (h, n) :: c
  match rec child c1 hp1 with
  | (.ok e, c2, hp2) => (.ok n, c2, setNode hp2 n (mk (some e)))
  | (.error err, c2, hp2) => (.error err, c2, hp2)
/-- The shared shape of the struct and union cases (139-153): construct,
cache, then convert the member list and set it. -/
def buildWithList (h : Nat) (mk : List Nat → Node)
    (go : Cache → Heap → ResL) (c : Cache) (hp : Heap) : Res :=
  let n := hp.next
  let hp1 := pushNode hp (mk [])
  let c1 := (h, n) :: c
  match go c1 hp1 with
  | (.ok ms, c2, hp2) => (.ok n, c2, setNode hp2 n (mk ms))
  | (.error err, c2, hp2) => (.error err, c2, hp2)
/-- The parameter loop of the function case (lines 100-104): convert
`get_nth_arg i` for `i = 0 .. get_nargs - 1` in declaration order. -/
def convList (rec : Nat → Cache → Heap → Res) :
    List Nat → Cache → Heap → ResL
  | [], c, hp => (.ok [], c, hp)
  | a :: rest, c, hp =>
    match rec a c hp with
    | (.ok n, c1, hp1) =>
      match convList rec rest c1 hp1 with
      | (.ok ns, c2, hp2) => (.ok (n :: ns), c2, hp2)
      | (.error e, c2, hp2) => (.error e, c2, hp2)
    | (.error e, c1, hp1) => (.error e, c1, hp1)
/-- The member loop of the struct/union case (lines 142-152): iterate
`i < get_udt_nmembers()`; if `find_udt_member` fails (the member list
runs out early) the loop breaks and the partial member list stands. -/
def convMembers (rec : Nat → Cache → Heap → Res) :
    Nat → List Nat → Cache → Heap → ResL
  | 0, _, c, hp => (.ok [], c, hp)
  | _ + 1, [], c, hp => (.ok [], c, hp)
  | k + 1, m :: rest, c, hp =>
    match rec m c hp with
    | (.ok n, c1, hp1) =>
      match convMembers rec k rest c1 hp1 with
      | (.ok ns, c2, hp2) => (.ok (n :: ns), c2, hp2)
      | (.error e, c2, hp2) => (.error e, c2, hp2)
    | (.error e, c1, hp1) => (.error e, c1, hp1)
/-- One dispatch step of `_convert_ida_type` (lines 77-220), with `rec`
standing for the recursive calls on child types.  The branch order is
the source's elif order: cache hit (81-82), void (85-86), the
pointer/array/function group (89-123), vector (126-135), the
struct/union/enum group (138-164), bool (167-168), integral (171-193),
floating (196-205), complex (207-209), typedef (212-216), fallthrough
(218-220). -/
def convStep (db : List FTy) (rec : Nat → Cache → Heap → Res)
    (h : Nat) (c : Cache) (hp : Heap) : Res :=
  match lookupA c h with
  | some n => (.ok n, c, hp)
  | none =>
    match db[h]? with
    | none => (.error (.badHandle h), c, hp)
    | some ty =>
      match ty with
      | .void => (.ok hp.next, c, pushNode hp .VoidType)
      | .ptr p => buildWithChild h Node.PointerType p rec c hp
      | .func r args va purge pk =>
        let n := hp.next
        let hp1 := pushNode hp (.FunctionType none [] false none)
        let c1 := (h, n) :: c
        match rec r c1 hp1 with
        | (.error err, c2, hp2) => (.error err, c2, hp2)
        | (.ok rn, c2, hp2) =>
          match convList rec args c2 hp2 with
          | (.error err, c3, hp3) => (.error err, c3, hp3)
          | (.ok ps, c3, hp3) =>
            (.ok n, c3,
             setNode hp3 n
               (.FunctionType (some rn) ps va (if purge then some pk else none)))
      | .array el k => buildWithChild h (fun e => .ArrayType e k) el rec c hp
      | .paf_other nm =>
        (.error (.unhandled ("Unhandled pointer, array, or function type: " ++ nm) h), c, hp)
      | .sse size =>
        let n := hp.next
        let hp1 := pushNode hp (.VectorType none 0)
        let c1 := (h, n) :: c
        let e := hp1.next
        let hp2 := pushNode hp1 (.IntegerType 1 false)
        (.ok n, c1, setNode hp2 n (.VectorType (some e) size))
      | .struct_ mems cnt =>
        buildWithList h Node.StructureType (convMembers rec cnt mems) c hp
      | .union_ mems cnt =>
        buildWithList h Node.UnionType (convMembers rec cnt mems) c hp
      | .enum b => buildWithChild h Node.EnumType b rec c hp
      | .sue_other nm =>
        (.error (.unhandled ("Unhandled struct, union, or enum type: " ++ nm) h), c, hp)
      | .bool_ => (.ok hp.next, c, pushNode hp .BoolType)
      | .integral fl nm =>
        match convert_integral fl nm h with
        | .ok nd => (.ok hp.next, c, pushNode hp nd)
        | .error e => (.error e, c, hp)
      | .floating fl nm =>
        match convert_floating fl nm h with
        | .ok nd => (.ok hp.next, c, pushNode hp nd)
        | .error e => (.error e, c, hp)
      | .complex_ nm =>
        (.error (.unhandled ("Complex numbers are not yet handled: " ++ nm) h), c, hp)
      | .typeref rt => buildWithChild h Node.TypedefType rt rec c hp
      | .other nm => (.error (.unhandled ("Unhandled type: " ++ nm) h), c, hp)
/-- `_convert_ida_type(ty, cache)`, fuelled. -/
def convert_ida_type (db : List FTy) : Nat → Nat → Cache → Heap → Res
  | 0 => fun _ c hp => (.error .outOfFuel, c, hp)
  | fuel + 1 => convStep db (convert_ida_type db fuel)
/-- The three architecture objects `get_arch` can build (`AMD64Arch`,
`X86Arch`, `AArch64Arch` from `anvill/arch.py`; only their identity is
consumed by `ida.py`). -/
inductive Arch where
  | AMD64Arch
  | X86Arch
  | AArch64Arch
  deriving DecidableEq, Repr
/-- The host signals `_guess_architecture` reads: the processor register
name list (`ida_idp.ph_get_regnames()`), the processor name
(`inf.procName`) and the bitness flag (`inf.is_64bit()`). -/
structure IdpEnv where
  regNames : List String
  procName : String
  is64 : Bool
  deriving DecidableEq, Repr
/-- How `_guess_architecture` can fail.  `unhandledArchitectureType` is
the declared `UnhandledArchitectureType` exception; `nameError` is a
Python `NameError` escaping from the evaluation of an unbound name. -/
inductive ArchErr where
  | unhandledArchitectureType (msg : String)
  | nameError (missing : String)
  deriving DecidableEq, Repr
/-- `_guess_architecture` (lines 54-74).  When the register-name test on
line 60 fails, line 66 evaluates `info.procName` — but no name `info` is
bound anywhere in the module (the `get_inf_structure()` result is bound
to `inf`, used as `inf.procName` on lines 71 and 74), so Python raises
`NameError` there and neither the aarch64 branch nor either
`UnhandledArchitectureType` raise is reachable. -/
def guess_architecture (env : IdpEnv) : Except ArchErr String :=
  if env.regNames.contains "ax" && env.regNames.contains "xmm0" then
    if env.is64 then .ok "amd64" else .ok "x86"
  else
    .error (.nameError "info")
/-- `get_arch` (lines 223-234): map the guessed name to an architecture
object; the trailing else raises `UnhandledArchitectureType`. -/
def get_arch (env : IdpEnv) : Except ArchErr Arch :=
  match guess_architecture env with
  | .error e => .error e
  | .ok nm =>
    if nm = "amd64" then .ok .AMD64Arch
    else if nm = "x86" then .ok .X86Arch
    else if nm = "aarch64" then .ok .AArch64Arch
    else .error (.unhandledArchitectureType
        ("Missing architecture object type for architecture " ++ nm))
/-- A `Function` entity as constructed by `get_function`
(`IDAFunction.__init__`): architecture context, normalized address, and
the id of its IR function-type node. -/
structure FuncEnt where
  arch : Arch
  address : Nat
  ftype : Nat
  deriving DecidableEq, Repr
/-- The space of live `Function` objects, analogous to `Heap`. -/
structure FuncHeap where
  ents : List (Nat × FuncEnt)
  next : Nat
  deriving DecidableEq, Repr
/-- The `_FUNCTIONS` weak-value registry: address to entity id.  An
entry is present exactly while its entity is live; the claims below
only concern runs during which no purge happens, so no collection step
is modelled. -/
abbrev Registry := List (Nat × Nat)
/-- The IDA database state `ida.py` queries: the known function regions
(`start_ea`, `end_ea`), the recoverable (non-empty) `tinfo_t` per
address (combining `ida_nalt.get_tinfo` and `guess_tinfo`; absence
models both lookup failure and an empty recovered type), and the foreign
type database. -/
structure IdaEnv where
  funcs : List (Nat × Nat)
  tinfos : List (Nat × Nat)
  db : List FTy
  deriving DecidableEq, Repr
/-- `ida_funcs.get_func(address)`: the function region containing the
address. -/
def ida_get_func (env : IdaEnv) (a : Nat) : Option (Nat × Nat) :=
  env.funcs.find? (fun r => r.1 ≤ a && a < r.2)
/-- `ida_funcs.get_prev_func(address)`: the nearest function starting at
or before the address. -/
def ida_get_prev_func (env : IdaEnv) (a : Nat) : Option (Nat × Nat) :=
  env.funcs.foldl
    (fun acc r =>
      if r.1 ≤ a then
        match acc with
        | none => some r
        | some b => if b.1 < r.1 then some r else acc
      else acc)
    none
/-- `ida_funcs.func_contains(f, address)`. -/
def func_contains (f : Nat × Nat) (a : Nat) : Bool :=
  f.1 ≤ a && a < f.2
/-- The possible arguments of `get_type` (lines 251-276): an IR `Type`
node (by id), a `Function` entity (by id), a foreign `tinfo_t` handle,
or a program address. -/
inductive GTArg where
  | typ (n : Nat)
  | func (f : Nat)
  | tinfo (h : Nat)
  | addr (a : Nat)
  deriving DecidableEq, Repr
/-- `get_type` (lines 251-276): identity on `Type` nodes; the stored
type of a `Function`; `_convert_ida_type(ty, {})` (note the fresh empty
cache) on a `tinfo_t`; for an address, convert the recovered type if
there is a non-empty one, otherwise return a fresh `VoidType` when the
address is falsy (`0`) and raise `UnhandledTypeException` otherwise. -/
def get_type (env : IdaEnv) (fuel : Nat) (arg : GTArg)
    (fh : FuncHeap) (hp : Heap) : Except ErrInfo Nat × Heap :=
  match arg with
  | .typ n => (.ok n, hp)
  | .func f =>
    match lookupA fh.ents f with
    | some ent => (.ok ent.ftype, hp)
    | none => (.error (.badHandle f), hp)
  | .tinfo h =>
    match convert_ida_type env.db fuel h [] hp with
    | (e, _, hp1) => (e, hp1)
  | .addr a =>
    match lookupA env.tinfos a with
    | some h =>
      match convert_ida_type env.db fuel h [] hp with
      | (e, _, hp1) => (e, hp1)
    | none =>
      if a = 0 then (.ok hp.next, pushNode hp .VoidType)
      else (.error (.unhandled "Unrecognized type passed to Type." a), hp)
/-- How `get_function` can fail: the declared `InvalidFunction` raise,
or an exception other than `UnhandledTypeException` escaping uncaught
(with this embedding's artifact errors, see `ErrInfo`). -/
inductive FnErr where
  | invalidFunction (msg : String)
  | raised (e : ErrInfo)
  deriving DecidableEq, Repr
/-- `get_function(arch, address)` (lines 295-326): locate the region via
`get_func` with a `get_prev_func` fallback, check containment, normalize
to `start_ea`, convert the start address's type (wrapping
`UnhandledTypeException` into `InvalidFunction`), then reuse the live
registry entry for the start address or construct, register and return a
new entity.  The `print(func_type.serialize(...))` side effect has no
bearing on state or result and is not modelled. -/
def get_function (env : IdaEnv) (arch : Arch) (fuel : Nat) (a : Nat)
    (fh : FuncHeap) (reg : Registry) (hp : Heap) :
    Except FnErr Nat × FuncHeap × Registry × Heap :=
  let f0 :=
    match ida_get_func env a with
    | some f => some f
    | none => ida_get_prev_func env a
  match f0 with
  | none =>
    (.error (.invalidFunction "No function defined at or containing address"),
     fh, reg, hp)
  | some f =>
    if func_contains f a then
      match get_type env fuel (.addr f.1) fh hp with
      | (.error (.unhandled msg _), hp1) =>
        (.error (.invalidFunction
            ("Could not assign type to function at address: " ++ msg)),
         fh, reg, hp1)
      | (.error e, hp1) => (.error (.raised e), fh, reg, hp1)
      | (.ok t, hp1) =>
        match lookupA reg f.1 with
        | some fid => (.ok fid, fh, reg, hp1)
        | none =>
          (.ok fh.next,
           ⟨(fh.next, ⟨arch, f.1, t⟩) :: fh.ents, fh.next + 1⟩,
           (f.1, fh.next) :: reg, hp1)
    else
      (.error (.invalidFunction "No function defined at or containing address"),
       fh, reg, hp)
/-- The region-location phase of `get_function` (lines 300-307) as one
function: exact containment first, then the at-or-before fallback, then
the containment check. -/
def locate (env : IdaEnv) (a : Nat) : Option (Nat × Nat) :=
  match
    (match ida_get_func env a with
     | some f => some f
     | none => ida_get_prev_func env a) with
  | none => none
  | some f => if func_contains f a then some f else none
/-- Heap extension: every id bound in the first heap is bound in the
second. -/
def HeapLe (hp hp' : Heap) : Prop :=
  ∀ i, (lookupA hp.nodes i).isSome = true → (lookupA hp'.nodes i).isSome = true
/-- A conversion step only ever grows the heap. -/
def RecMono (rec : Nat → Cache → Heap → Res) : Prop :=
  ∀ h c hp, HeapLe hp (rec h c hp).2.2
/-- Two caches with the same keys in the same order (they may map them
to different node ids, as two runs over different heaps do). -/
def DomEq (c₁ c₂ : Cache) : Prop := c₁.map Prod.fst = c₂.map Prod.fst
def isOkE {ε α : Type} : Except ε α → Bool
  | .ok _ => true
  | .error _ => false
/-- Two recursors run in lockstep: from same-domain caches they produce
the same success/failure verdict and same-domain caches. -/
def RecRel (rec₁ rec₂ : Nat → Cache → Heap → Res) : Prop :=
  ∀ h c₁ hp₁ c₂ hp₂, DomEq c₁ c₂ →
    isOkE (rec₁ h c₁ hp₁).1 = isOkE (rec₂ h c₂ hp₂).1 ∧
    DomEq (rec₁ h c₁ hp₁).2.1 (rec₂ h c₂ hp₂).2.1
instance instDecEqExcept {ε α : Type} [DecidableEq ε] [DecidableEq α] :
    DecidableEq (Except ε α) := fun x y =>
  match x, y with
  | .ok a, .ok b =>
    if h : a = b then isTrue (by rw [h])
    else isFalse (by intro he; injection he; contradiction)
  | .error a, .error b =>
    if h : a = b then isTrue (by rw [h])
    else isFalse (by intro he; injection he; contradiction)
  | .ok _, .error _ => isFalse (by intro he; injection he)
  | .error _, .ok _ => isFalse (by intro he; injection he)
def emptyHeap : Heap := ⟨[], 0⟩
/-- A foreign `S*` where `struct S { S* p; };`: handle 0 is the root
pointer, handle 1 the struct, handle 2 the member pointer back to the
struct. -/
def cycDb : List FTy := [.ptr 1, .struct_ [2] 1, .ptr 1]
def cycHeap : Heap :=
  ⟨[(2, .PointerType (some 1)), (1, .StructureType [2]), (0, .PointerType (some 1))], 3⟩
def u32Flags : IntFlags :=
  ⟨false, false, false, false, true, false, false, false, false, false⟩
/-- The per-primitive conversion contract: converting the sole handle of
a one-entry database yields node 0 holding exactly the expected leaf,
and a second conversion with the cache returned by the first yields a
fresh node 1 holding a value-equal leaf. -/
def primOk (p : FTy × Node) : Prop :=
  (convert_ida_type [p.1] 1 0 [] emptyHeap).1 = .ok 0
  ∧ lookupA (convert_ida_type [p.1] 1 0 [] emptyHeap).2.2.nodes 0 = some p.2
  ∧ (convert_ida_type [p.1] 1 0 (convert_ida_type [p.1] 1 0 [] emptyHeap).2.1
      (convert_ida_type [p.1] 1 0 [] emptyHeap).2.2).1 = .ok 1
  ∧ lookupA (convert_ida_type [p.1] 1 0 (convert_ida_type [p.1] 1 0 [] emptyHeap).2.1
      (convert_ida_type [p.1] 1 0 [] emptyHeap).2.2).2.2.nodes 1 = some p.2
instance primOkDecidable (p : FTy × Node) : Decidable (primOk p) := by
  unfold primOk
  infer_instance
/-- Every primitive foreign type paired with the IR leaf the source
builds for it: void, bool, the ten integer classifications, float,
double, and a 16-byte long double. -/
def primCases : List (FTy × Node) :=
  [(.void, .VoidType),
   (.bool_, .BoolType),
   (.integral ⟨true, false, false, false, false, false, false, false, false, false⟩
      "unsigned __int128", .IntegerType 16 false),
   (.integral ⟨false, true, false, false, false, false, false, false, false, false⟩
      "__int128", .IntegerType 16 true),
   (.integral ⟨false, false, true, false, false, false, false, false, false, false⟩
      "unsigned __int64", .IntegerType 8 false),
   (.integral ⟨false, false, false, true, false, false, false, false, false, false⟩
      "__int64", .IntegerType 8 true),
   (.integral ⟨false, false, false, false, true, false, false, false, false, false⟩
      "unsigned int", .IntegerType 4 false),
   (.integral ⟨false, false, false, false, false, true, false, false, false, false⟩
      "int", .IntegerType 4 true),
   (.integral ⟨false, false, false, false, false, false, true, false, false, false⟩
      "unsigned short", .IntegerType 2 false),
   (.integral ⟨false, false, false, false, false, false, false, true, false, false⟩
      "short", .IntegerType 2 true),
   (.integral ⟨false, false, false, false, false, false, false, false, true, false⟩
      "unsigned char", .IntegerType 1 false),
   (.integral ⟨false, false, false, false, false, false, false, false, false, true⟩
      "char", .IntegerType 1 true),
   (.floating ⟨false, false, true, 0⟩ "float", .FloatingPointType 4),
   (.floating ⟨false, true, false, 0⟩ "double", .FloatingPointType 8),
   (.floating ⟨true, false, false, 16⟩ "long double", .FloatingPointType 16)]
/-- The claim's precedence list: the ten predicates in the order the
spec states them, each paired with the width/signedness of the leaf the
first true one must produce. -/
def int_precedence (fl : IntFlags) : List (Bool × Nat × Bool) :=
  [(fl.is_uint128, 16, false), (fl.is_int128, 16, true),
   (fl.is_uint64, 8, false), (fl.is_int64, 8, true),
   (fl.is_uint32, 4, false), (fl.is_int32, 4, true),
   (fl.is_uint16, 2, false), (fl.is_int16, 2, true),
   (fl.is_uchar, 1, false), (fl.is_char, 1, true)]
def first_true : List (Bool × Nat × Bool) → Option (Nat × Bool)
  | [] => none
  | (b, ws) :: r => if b then some ws else first_true r
def dbFunc : List FTy := [.func 1 [1] true true 8, .void]
def funcHeapOut : Heap :=
  ⟨[(2, .VoidType), (1, .VoidType), (0, .FunctionType (some 1) [2] true (some 8))], 3⟩
def fhX : FuncHeap := ⟨[(0, ⟨Arch.X86Arch, 10, 7⟩)], 1⟩
def envW : IdaEnv := ⟨[(10, 20)], [(10, 0)], [.void]⟩
def fh0 : FuncHeap := ⟨[], 0⟩
def fhW : FuncHeap := ⟨[(0, ⟨Arch.AMD64Arch, 10, 0⟩)], 1⟩
def regW : Registry := [(10, 0)]
def hpW : Heap := ⟨[(0, .VoidType)], 1⟩
def mipsEnv : IdpEnv := ⟨["r0", "r1"], "mips", false⟩
theorem convert_ida_type_succ (db : List FTy) (f h : Nat) (c : Cache) (hp : Heap) :
    convert_ida_type db (f + 1) h c hp = convStep db (convert_ida_type db f) h c hp := rfl
theorem lookupA_isSome_of_mapEq {α β : Type} :
    ∀ (l₁ : List (Nat × α)) (l₂ : List (Nat × β)),
      l₁.map Prod.fst = l₂.map Prod.fst →
      ∀ a, (lookupA l₁ a).isSome = (lookupA l₂ a).isSome := by
  intro l₁
  induction l₁ with
  | nil =>
    intro l₂ hm a
    cases l₂ with
    | nil => rfl
    | cons q s => simp at hm
  | cons p r ih =>
    intro l₂ hm a
    cases l₂ with
    | nil => simp at hm
    | cons q s =>
      rcases p with ⟨k, v⟩
      rcases q with ⟨k', w⟩
      simp only [List.map_cons, List.cons.injEq] at hm
      obtain ⟨hk, hr⟩ := hm
      subst hk
      by_cases hka : k = a
      · simp [lookupA, hka]
      · simp [lookupA, hka, ih s hr a]
theorem HeapLe.refl (hp : Heap) : HeapLe hp hp := fun _ h => h
theorem HeapLe.trans {a b c : Heap} (h1 : HeapLe a b) (h2 : HeapLe b c) :
    HeapLe a c := fun i h => h2 i (h1 i h)
theorem HeapLe_push (hp : Heap) (nd : Node) : HeapLe hp (pushNode hp nd) := by
  intro i h
  by_cases hk : hp.next = i
  · simp [pushNode, lookupA, hk]
  · simpa [pushNode, lookupA, hk] using h
theorem lookupA_setNode_isSome (hp : Heap) (n : Nat) (nd : Node) (i : Nat) :
    (lookupA (setNode hp n nd).nodes i).isSome = (lookupA hp.nodes i).isSome := by
  rcases hp with ⟨l, nx⟩
  simp only [setNode]
  induction l with
  | nil => rfl
  | cons p r ih =>
    rcases p with ⟨k, v⟩
    have hmap : List.map (fun p => if p.1 = n then (p.1, nd) else p) ((k, v) :: r)
        = (if k = n then (k, nd) else (k, v))
          :: List.map (fun p => if p.1 = n then (p.1, nd) else p) r := rfl
    rw [hmap]
    by_cases hk : k = n
    · rw [if_pos hk]
      by_cases hki : k = i
      · simp [lookupA, hki]
      · simp only [lookupA, if_neg hki]
        exact ih
    · rw [if_neg hk]
      by_cases hki : k = i
      · simp [lookupA, hki]
      · simp only [lookupA, if_neg hki]
        exact ih
theorem HeapLe_set (hp : Heap) (n : Nat) (nd : Node) : HeapLe hp (setNode hp n nd) := by
  intro i h
  rw [lookupA_setNode_isSome]
  exact h
theorem lookupA_setNode_self (hp : Heap) (n : Nat) (nd : Node)
    (h : (lookupA hp.nodes n).isSome = true) :
    lookupA (setNode hp n nd).nodes n = some nd := by
  rcases hp with ⟨l, nx⟩
  simp only [setNode] at *
  induction l with
  | nil => simp [lookupA] at h
  | cons p r ih =>
    rcases p with ⟨k, v⟩
    have hmap : List.map (fun p => if p.1 = n then (p.1, nd) else p) ((k, v) :: r)
        = (if k = n then (k, nd) else (k, v))
          :: List.map (fun p => if p.1 = n then (p.1, nd) else p) r := rfl
    rw [hmap]
    by_cases hk : k = n
    · rw [if_pos hk]
      simp [lookupA, hk]
    · rw [if_neg hk]
      simp only [lookupA, if_neg hk] at h ⊢
      exact ih h
theorem convList_mono (rec : Nat → Cache → Heap → Res) (H : RecMono rec) :
    ∀ l c hp, HeapLe hp (convList rec l c hp).2.2 := by
  intro l
  induction l with
  | nil => intro c hp; exact HeapLe.refl hp
  | cons a rest ih =>
    intro c hp
    have h1 := H a c hp
    rcases hr : rec a c hp with ⟨e, c1, hp1⟩
    rw [hr] at h1
    cases e with
    | error err => simpa [convList, hr] using h1
    | ok n =>
      have h2 := ih c1 hp1
      rcases hr2 : convList rec rest c1 hp1 with ⟨e2, c2, hp2⟩
      rw [hr2] at h2
      cases e2 with
      | error err => simpa [convList, hr, hr2] using HeapLe.trans h1 h2
      | ok ns => simpa [convList, hr, hr2] using HeapLe.trans h1 h2
theorem convMembers_mono (rec : Nat → Cache → Heap → Res) (H : RecMono rec) :
    ∀ k l c hp, HeapLe hp (convMembers rec k l c hp).2.2 := by
  intro k
  induction k with
  | zero => intro l c hp; exact HeapLe.refl hp
  | succ k ih =>
    intro l c hp
    cases l with
    | nil => exact HeapLe.refl hp
    | cons m rest =>
      have h1 := H m c hp
      rcases hr : rec m c hp with ⟨e, c1, hp1⟩
      rw [hr] at h1
      cases e with
      | error err => simpa [convMembers, hr] using h1
      | ok n =>
        have h2 := ih rest c1 hp1
        rcases hr2 : convMembers rec k rest c1 hp1 with ⟨e2, c2, hp2⟩
        rw [hr2] at h2
        cases e2 with
        | error err => simpa [convMembers, hr, hr2] using HeapLe.trans h1 h2
        | ok ns => simpa [convMembers, hr, hr2] using HeapLe.trans h1 h2
theorem buildWithChild_mono (h : Nat) (mk : Option Nat → Node) (child : Nat)
    (rec : Nat → Cache → Heap → Res) (H : RecMono rec) (c : Cache) (hp : Heap) :
    HeapLe hp (buildWithChild h mk child rec c hp).2.2 := by
  have h0 : HeapLe hp (pushNode hp (mk none)) := HeapLe_push hp (mk none)
  have h1 := H child ((h, hp.next) :: c) (pushNode hp (mk none))
  rcases hr : rec child ((h, hp.next) :: c) (pushNode hp (mk none)) with ⟨e, c2, hp2⟩
  rw [hr] at h1
  cases e with
  | ok n =>
    simpa [buildWithChild, hr] using
      HeapLe.trans h0 (HeapLe.trans h1 (HeapLe_set hp2 hp.next (mk (some n))))
  | error err => simpa [buildWithChild, hr] using HeapLe.trans h0 h1
theorem buildWithList_mono (h : Nat) (mk : List Nat → Node)
    (go : Cache → Heap → ResL) (Hgo : ∀ c hp, HeapLe hp (go c hp).2.2)
    (c : Cache) (hp : Heap) :
    HeapLe hp (buildWithList h mk go c hp).2.2 := by
  have h0 : HeapLe hp (pushNode hp (mk [])) := HeapLe_push hp (mk [])
  have h1 := Hgo ((h, hp.next) :: c) (pushNode hp (mk []))
  rcases hr : go ((h, hp.next) :: c) (pushNode hp (mk [])) with ⟨e, c2, hp2⟩
  rw [hr] at h1
  cases e with
  | ok ms =>
    simpa [buildWithList, hr] using
      HeapLe.trans h0 (HeapLe.trans h1 (HeapLe_set hp2 hp.next (mk ms)))
  | error err => simpa [buildWithList, hr] using HeapLe.trans h0 h1
theorem convStep_mono (db : List FTy) (rec : Nat → Cache → Heap → Res)
    (H : RecMono rec) : RecMono (convStep db rec) := by
  intro h c hp
  cases hl : lookupA c h with
  | some n => simpa [convStep, hl] using HeapLe.refl hp
  | none =>
    cases hdb : db[h]? with
    | none => simpa [convStep, hl, hdb] using HeapLe.refl hp
    | some ty =>
      cases ty with
      | void => simpa [convStep, hl, hdb] using HeapLe_push hp .VoidType
      | ptr p =>
        simpa [convStep, hl, hdb] using
          buildWithChild_mono h Node.PointerType p rec H c hp
      | func r args va purge pk =>
        have h0 : HeapLe hp (pushNode hp (.FunctionType none [] false none)) :=
          HeapLe_push hp _
        have h1 := H r ((h, hp.next) :: c) (pushNode hp (.FunctionType none [] false none))
        rcases hr : rec r ((h, hp.next) :: c) (pushNode hp (.FunctionType none [] false none))
          with ⟨e, c2, hp2⟩
        rw [hr] at h1
        cases e with
        | error err => simpa [convStep, hl, hdb, hr] using HeapLe.trans h0 h1
        | ok rn =>
          have h2 := convList_mono rec H args c2 hp2
          rcases hr2 : convList rec args c2 hp2 with ⟨e2, c3, hp3⟩
          rw [hr2] at h2
          cases e2 with
          | error err =>
            simpa [convStep, hl, hdb, hr, hr2] using HeapLe.trans h0 (HeapLe.trans h1 h2)
          | ok ps =>
            simpa [convStep, hl, hdb, hr, hr2] using
              HeapLe.trans h0 (HeapLe.trans h1 (HeapLe.trans h2
                (HeapLe_set hp3 hp.next
                  (.FunctionType (some rn) ps va (if purge then some pk else none)))))
      | array el k =>
        simpa [convStep, hl, hdb] using
          buildWithChild_mono h (fun e => .ArrayType e k) el rec H c hp
      | paf_other nm => simpa [convStep, hl, hdb] using HeapLe.refl hp
      | sse size =>
        simpa [convStep, hl, hdb] using
          HeapLe.trans (HeapLe_push hp (.VectorType none 0))
            (HeapLe.trans (HeapLe_push (pushNode hp (.VectorType none 0)) (.IntegerType 1 false))
              (HeapLe_set _ hp.next (.VectorType (some (pushNode hp (.VectorType none 0)).next) size)))
      | struct_ mems cnt =>
        simpa [convStep, hl, hdb] using
          buildWithList_mono h Node.StructureType (convMembers rec cnt mems)
            (fun c hp => convMembers_mono rec H cnt mems c hp) c hp
      | union_ mems cnt =>
        simpa [convStep, hl, hdb] using
          buildWithList_mono h Node.UnionType (convMembers rec cnt mems)
            (fun c hp => convMembers_mono rec H cnt mems c hp) c hp
      | enum b =>
        simpa [convStep, hl, hdb] using buildWithChild_mono h Node.EnumType b rec H c hp
      | sue_other nm => simpa [convStep, hl, hdb] using HeapLe.refl hp
      | bool_ => simpa [convStep, hl, hdb] using HeapLe_push hp .BoolType
      | integral fl nm =>
        cases hi : convert_integral fl nm h with
        | ok nd => simpa [convStep, hl, hdb, hi] using HeapLe_push hp nd
        | error e => simpa [convStep, hl, hdb, hi] using HeapLe.refl hp
      | floating fl nm =>
        cases hi : convert_floating fl nm h with
        | ok nd => simpa [convStep, hl, hdb, hi] using HeapLe_push hp nd
        | error e => simpa [convStep, hl, hdb, hi] using HeapLe.refl hp
      | complex_ nm => simpa [convStep, hl, hdb] using HeapLe.refl hp
      | typeref rt =>
        simpa [convStep, hl, hdb] using buildWithChild_mono h Node.TypedefType rt rec H c hp
      | other nm => simpa [convStep, hl, hdb] using HeapLe.refl hp
theorem conv_mono (db : List FTy) : ∀ f, RecMono (convert_ida_type db f) := by
  intro f
  induction f with
  | zero => intro h c hp; exact HeapLe.refl hp
  | succ f ih => exact convStep_mono db _ ih
theorem DomEq.cons (h n₁ n₂ : Nat) {c₁ c₂ : Cache} (hd : DomEq c₁ c₂) :
    DomEq ((h, n₁) :: c₁) ((h, n₂) :: c₂) := by
  simp only [DomEq, List.map_cons]
  exact congrArg (h :: ·) hd
theorem convList_rel (rec₁ rec₂ : Nat → Cache → Heap → Res) (H : RecRel rec₁ rec₂) :
    ∀ (l : List Nat) (c₁ : Cache) (hp₁ : Heap) (c₂ : Cache) (hp₂ : Heap), DomEq c₁ c₂ →
      isOkE (convList rec₁ l c₁ hp₁).1 = isOkE (convList rec₂ l c₂ hp₂).1 ∧
      DomEq (convList rec₁ l c₁ hp₁).2.1 (convList rec₂ l c₂ hp₂).2.1 := by
  intro l
  induction l with
  | nil => intro c₁ hp₁ c₂ hp₂ hd; exact ⟨rfl, hd⟩
  | cons a rest ih =>
    intro c₁ hp₁ c₂ hp₂ hd
    have h1 := H a c₁ hp₁ c₂ hp₂ hd
    rcases hr₁ : rec₁ a c₁ hp₁ with ⟨e₁, cc₁, hh₁⟩
    rcases hr₂ : rec₂ a c₂ hp₂ with ⟨e₂, cc₂, hh₂⟩
    rw [hr₁, hr₂] at h1
    obtain ⟨hok, hdo⟩ := h1
    cases e₁ with
    | error err₁ =>
      cases e₂ with
      | error err₂ => exact ⟨by simp [convList, hr₁, hr₂, isOkE], by simpa [convList, hr₁, hr₂] using hdo⟩
      | ok n₂ => simp [isOkE] at hok
    | ok n₁ =>
      cases e₂ with
      | error err₂ => simp [isOkE] at hok
      | ok n₂ =>
        have h2 := ih cc₁ hh₁ cc₂ hh₂ hdo
        rcases hs₁ : convList rec₁ rest cc₁ hh₁ with ⟨f₁, dd₁, gg₁⟩
        rcases hs₂ : convList rec₂ rest cc₂ hh₂ with ⟨f₂, dd₂, gg₂⟩
        rw [hs₁, hs₂] at h2
        obtain ⟨hok2, hdo2⟩ := h2
        cases f₁ with
        | error err₁ =>
          cases f₂ with
          | error err₂ =>
            exact ⟨by simp [convList, hr₁, hr₂, hs₁, hs₂, isOkE],
                   by simpa [convList, hr₁, hr₂, hs₁, hs₂] using hdo2⟩
          | ok ns₂ => simp [isOkE] at hok2
        | ok ns₁ =>
          cases f₂ with
          | error err₂ => simp [isOkE] at hok2
          | ok ns₂ =>
            exact ⟨by simp [convList, hr₁, hr₂, hs₁, hs₂, isOkE],
                   by simpa [convList, hr₁, hr₂, hs₁, hs₂] using hdo2⟩
theorem convMembers_rel (rec₁ rec₂ : Nat → Cache → Heap → Res) (H : RecRel rec₁ rec₂) :
    ∀ (k : Nat) (l : List Nat) (c₁ : Cache) (hp₁ : Heap) (c₂ : Cache) (hp₂ : Heap), DomEq c₁ c₂ →
      isOkE (convMembers rec₁ k l c₁ hp₁).1 = isOkE (convMembers rec₂ k l c₂ hp₂).1 ∧
      DomEq (convMembers rec₁ k l c₁ hp₁).2.1 (convMembers rec₂ k l c₂ hp₂).2.1 := by
  intro k
  induction k with
  | zero => intro l c₁ hp₁ c₂ hp₂ hd; exact ⟨rfl, hd⟩
  | succ k ih =>
    intro l c₁ hp₁ c₂ hp₂ hd
    cases l with
    | nil => exact ⟨rfl, hd⟩
    | cons m rest =>
      have h1 := H m c₁ hp₁ c₂ hp₂ hd
      rcases hr₁ : rec₁ m c₁ hp₁ with ⟨e₁, cc₁, hh₁⟩
      rcases hr₂ : rec₂ m c₂ hp₂ with ⟨e₂, cc₂, hh₂⟩
      rw [hr₁, hr₂] at h1
      obtain ⟨hok, hdo⟩ := h1
      cases e₁ with
      | error err₁ =>
        cases e₂ with
        | error err₂ =>
          exact ⟨by simp [convMembers, hr₁, hr₂, isOkE],
                 by simpa [convMembers, hr₁, hr₂] using hdo⟩
        | ok n₂ => simp [isOkE] at hok
      | ok n₁ =>
        cases e₂ with
        | error err₂ => simp [isOkE] at hok
        | ok n₂ =>
          have h2 := ih rest cc₁ hh₁ cc₂ hh₂ hdo
          rcases hs₁ : convMembers rec₁ k rest cc₁ hh₁ with ⟨f₁, dd₁, gg₁⟩
          rcases hs₂ : convMembers rec₂ k rest cc₂ hh₂ with ⟨f₂, dd₂, gg₂⟩
          rw [hs₁, hs₂] at h2
          obtain ⟨hok2, hdo2⟩ := h2
          cases f₁ with
          | error err₁ =>
            cases f₂ with
            | error err₂ =>
              exact ⟨by simp [convMembers, hr₁, hr₂, hs₁, hs₂, isOkE],
                     by simpa [convMembers, hr₁, hr₂, hs₁, hs₂] using hdo2⟩
            | ok ns₂ => simp [isOkE] at hok2
          | ok ns₁ =>
            cases f₂ with
            | error err₂ => simp [isOkE] at hok2
            | ok ns₂ =>
              exact ⟨by simp [convMembers, hr₁, hr₂, hs₁, hs₂, isOkE],
                     by simpa [convMembers, hr₁, hr₂, hs₁, hs₂] using hdo2⟩
theorem buildWithChild_rel (h : Nat) (mk : Option Nat → Node) (child : Nat)
    (rec₁ rec₂ : Nat → Cache → Heap → Res) (H : RecRel rec₁ rec₂)
    (c₁ : Cache) (hp₁ : Heap) (c₂ : Cache) (hp₂ : Heap) (hd : DomEq c₁ c₂) :
    isOkE (buildWithChild h mk child rec₁ c₁ hp₁).1
      = isOkE (buildWithChild h mk child rec₂ c₂ hp₂).1 ∧
    DomEq (buildWithChild h mk child rec₁ c₁ hp₁).2.1
      (buildWithChild h mk child rec₂ c₂ hp₂).2.1 := by
  have hd' := DomEq.cons h hp₁.next hp₂.next hd
  have h1 := H child ((h, hp₁.next) :: c₁) (pushNode hp₁ (mk none))
    ((h, hp₂.next) :: c₂) (pushNode hp₂ (mk none)) hd'
  rcases hr₁ : rec₁ child ((h, hp₁.next) :: c₁) (pushNode hp₁ (mk none)) with ⟨e₁, cc₁, hh₁⟩
  rcases hr₂ : rec₂ child ((h, hp₂.next) :: c₂) (pushNode hp₂ (mk none)) with ⟨e₂, cc₂, hh₂⟩
  rw [hr₁, hr₂] at h1
  obtain ⟨hok, hdo⟩ := h1
  cases e₁ with
  | error err₁ =>
    cases e₂ with
    | error err₂ =>
      exact ⟨by simp [buildWithChild, hr₁, hr₂, isOkE],
             by simpa [buildWithChild, hr₁, hr₂] using hdo⟩
    | ok n₂ => simp [isOkE] at hok
  | ok n₁ =>
    cases e₂ with
    | error err₂ => simp [isOkE] at hok
    | ok n₂ =>
      exact ⟨by simp [buildWithChild, hr₁, hr₂, isOkE],
             by simpa [buildWithChild, hr₁, hr₂] using hdo⟩
theorem buildWithList_rel (h : Nat) (mk : List Nat → Node)
    (go₁ go₂ : Cache → Heap → ResL)
    (Hgo : ∀ c₁ hp₁ c₂ hp₂, DomEq c₁ c₂ →
      isOkE (go₁ c₁ hp₁).1 = isOkE (go₂ c₂ hp₂).1 ∧ DomEq (go₁ c₁ hp₁).2.1 (go₂ c₂ hp₂).2.1)
    (c₁ : Cache) (hp₁ : Heap) (c₂ : Cache) (hp₂ : Heap) (hd : DomEq c₁ c₂) :
    isOkE (buildWithList h mk go₁ c₁ hp₁).1 = isOkE (buildWithList h mk go₂ c₂ hp₂).1 ∧
    DomEq (buildWithList h mk go₁ c₁ hp₁).2.1 (buildWithList h mk go₂ c₂ hp₂).2.1 := by
  have hd' := DomEq.cons h hp₁.next hp₂.next hd
  have h1 := Hgo ((h, hp₁.next) :: c₁) (pushNode hp₁ (mk []))
    ((h, hp₂.next) :: c₂) (pushNode hp₂ (mk [])) hd'
  rcases hr₁ : go₁ ((h, hp₁.next) :: c₁) (pushNode hp₁ (mk [])) with ⟨e₁, cc₁, hh₁⟩
  rcases hr₂ : go₂ ((h, hp₂.next) :: c₂) (pushNode hp₂ (mk [])) with ⟨e₂, cc₂, hh₂⟩
  rw [hr₁, hr₂] at h1
  obtain ⟨hok, hdo⟩ := h1
  cases e₁ with
  | error err₁ =>
    cases e₂ with
    | error err₂ =>
      exact ⟨by simp [buildWithList, hr₁, hr₂, isOkE],
             by simpa [buildWithList, hr₁, hr₂] using hdo⟩
    | ok ms₂ => simp [isOkE] at hok
  | ok ms₁ =>
    cases e₂ with
    | error err₂ => simp [isOkE] at hok
    | ok ms₂ =>
      exact ⟨by simp [buildWithList, hr₁, hr₂, isOkE],
             by simpa [buildWithList, hr₁, hr₂] using hdo⟩
theorem convStep_rel (db : List FTy) (rec₁ rec₂ : Nat → Cache → Heap → Res)
    (H : RecRel rec₁ rec₂) : RecRel (convStep db rec₁) (convStep db rec₂) := by
  intro h c₁ hp₁ c₂ hp₂ hd
  have hsome : (lookupA c₁ h).isSome = (lookupA c₂ h).isSome :=
    lookupA_isSome_of_mapEq c₁ c₂ hd h
  cases hl₁ : lookupA c₁ h with
  | some n₁ =>
    cases hl₂ : lookupA c₂ h with
    | none => rw [hl₁, hl₂] at hsome; simp at hsome
    | some n₂ =>
      exact ⟨by simp [convStep, hl₁, hl₂, isOkE], by simpa [convStep, hl₁, hl₂] using hd⟩
  | none =>
    cases hl₂ : lookupA c₂ h with
    | some n₂ => rw [hl₁, hl₂] at hsome; simp at hsome
    | none =>
      cases hdb : db[h]? with
      | none =>
        exact ⟨by simp [convStep, hl₁, hl₂, hdb, isOkE],
               by simpa [convStep, hl₁, hl₂, hdb] using hd⟩
      | some ty =>
        cases ty with
        | void =>
          exact ⟨by simp [convStep, hl₁, hl₂, hdb, isOkE],
                 by simpa [convStep, hl₁, hl₂, hdb] using hd⟩
        | ptr p =>
          have := buildWithChild_rel h Node.PointerType p rec₁ rec₂ H c₁ hp₁ c₂ hp₂ hd
          exact ⟨by simpa [convStep, hl₁, hl₂, hdb] using this.1,
                 by simpa [convStep, hl₁, hl₂, hdb] using this.2⟩
        | func r args va purge pk =>
          have hd' := DomEq.cons h hp₁.next hp₂.next hd
          have h1 := H r ((h, hp₁.next) :: c₁) (pushNode hp₁ (.FunctionType none [] false none))
            ((h, hp₂.next) :: c₂) (pushNode hp₂ (.FunctionType none [] false none)) hd'
          rcases hr₁ : rec₁ r ((h, hp₁.next) :: c₁) (pushNode hp₁ (.FunctionType none [] false none))
            with ⟨e₁, cc₁, hh₁⟩
          rcases hr₂ : rec₂ r ((h, hp₂.next) :: c₂) (pushNode hp₂ (.FunctionType none [] false none))
            with ⟨e₂, cc₂, hh₂⟩
          rw [hr₁, hr₂] at h1
          obtain ⟨hok, hdo⟩ := h1
          cases e₁ with
          | error err₁ =>
            cases e₂ with
            | error err₂ =>
              exact ⟨by simp [convStep, hl₁, hl₂, hdb, hr₁, hr₂, isOkE],
                     by simpa [convStep, hl₁, hl₂, hdb, hr₁, hr₂] using hdo⟩
            | ok rn₂ => simp [isOkE] at hok
          | ok rn₁ =>
            cases e₂ with
            | error err₂ => simp [isOkE] at hok
            | ok rn₂ =>
              have h2 := convList_rel rec₁ rec₂ H args cc₁ hh₁ cc₂ hh₂ hdo
              rcases hs₁ : convList rec₁ args cc₁ hh₁ with ⟨f₁, dd₁, gg₁⟩
              rcases hs₂ : convList rec₂ args cc₂ hh₂ with ⟨f₂, dd₂, gg₂⟩
              rw [hs₁, hs₂] at h2
              obtain ⟨hok2, hdo2⟩ := h2
              cases f₁ with
              | error err₁ =>
                cases f₂ with
                | error err₂ =>
                  exact ⟨by simp [convStep, hl₁, hl₂, hdb, hr₁, hr₂, hs₁, hs₂, isOkE],
                         by simpa [convStep, hl₁, hl₂, hdb, hr₁, hr₂, hs₁, hs₂] using hdo2⟩
                | ok ps₂ => simp [isOkE] at hok2
              | ok ps₁ =>
                cases f₂ with
                | error err₂ => simp [isOkE] at hok2
                | ok ps₂ =>
                  exact ⟨by simp [convStep, hl₁, hl₂, hdb, hr₁, hr₂, hs₁, hs₂, isOkE],
                         by simpa [convStep, hl₁, hl₂, hdb, hr₁, hr₂, hs₁, hs₂] using hdo2⟩
        | array el k =>
          have := buildWithChild_rel h (fun e => Node.ArrayType e k) el rec₁ rec₂ H c₁ hp₁ c₂ hp₂ hd
          exact ⟨by simpa [convStep, hl₁, hl₂, hdb] using this.1,
                 by simpa [convStep, hl₁, hl₂, hdb] using this.2⟩
        | paf_other nm =>
          exact ⟨by simp [convStep, hl₁, hl₂, hdb, isOkE],
                 by simpa [convStep, hl₁, hl₂, hdb] using hd⟩
        | sse size =>
          exact ⟨by simp [convStep, hl₁, hl₂, hdb, isOkE],
                 by simpa [convStep, hl₁, hl₂, hdb] using DomEq.cons h hp₁.next hp₂.next hd⟩
        | struct_ mems cnt =>
          have := buildWithList_rel h Node.StructureType
            (convMembers rec₁ cnt mems) (convMembers rec₂ cnt mems)
            (fun c₁ hp₁ c₂ hp₂ hd => convMembers_rel rec₁ rec₂ H cnt mems c₁ hp₁ c₂ hp₂ hd)
            c₁ hp₁ c₂ hp₂ hd
          exact ⟨by simpa [convStep, hl₁, hl₂, hdb] using this.1,
                 by simpa [convStep, hl₁, hl₂, hdb] using this.2⟩
        | union_ mems cnt =>
          have := buildWithList_rel h Node.UnionType
            (convMembers rec₁ cnt mems) (convMembers rec₂ cnt mems)
            (fun c₁ hp₁ c₂ hp₂ hd => convMembers_rel rec₁ rec₂ H cnt mems c₁ hp₁ c₂ hp₂ hd)
            c₁ hp₁ c₂ hp₂ hd
          exact ⟨by simpa [convStep, hl₁, hl₂, hdb] using this.1,
                 by simpa [convStep, hl₁, hl₂, hdb] using this.2⟩
        | enum b =>
          have := buildWithChild_rel h Node.EnumType b rec₁ rec₂ H c₁ hp₁ c₂ hp₂ hd
          exact ⟨by simpa [convStep, hl₁, hl₂, hdb] using this.1,
                 by simpa [convStep, hl₁, hl₂, hdb] using this.2⟩
        | sue_other nm =>
          exact ⟨by simp [convStep, hl₁, hl₂, hdb, isOkE],
                 by simpa [convStep, hl₁, hl₂, hdb] using hd⟩
        | bool_ =>
          exact ⟨by simp [convStep, hl₁, hl₂, hdb, isOkE],
                 by simpa [convStep, hl₁, hl₂, hdb] using hd⟩
        | integral fl nm =>
          cases hi : convert_integral fl nm h with
          | ok nd =>
            exact ⟨by simp [convStep, hl₁, hl₂, hdb, hi, isOkE],
                   by simpa [convStep, hl₁, hl₂, hdb, hi] using hd⟩
          | error e =>
            exact ⟨by simp [convStep, hl₁, hl₂, hdb, hi, isOkE],
                   by simpa [convStep, hl₁, hl₂, hdb, hi] using hd⟩
        | floating fl nm =>
          cases hi : convert_floating fl nm h with
          | ok nd =>
            exact ⟨by simp [convStep, hl₁, hl₂, hdb, hi, isOkE],
                   by simpa [convStep, hl₁, hl₂, hdb, hi] using hd⟩
          | error e =>
            exact ⟨by simp [convStep, hl₁, hl₂, hdb, hi, isOkE],
                   by simpa [convStep, hl₁, hl₂, hdb, hi] using hd⟩
        | complex_ nm =>
          exact ⟨by simp [convStep, hl₁, hl₂, hdb, isOkE],
                 by simpa [convStep, hl₁, hl₂, hdb] using hd⟩
        | typeref rt =>
          have := buildWithChild_rel h Node.TypedefType rt rec₁ rec₂ H c₁ hp₁ c₂ hp₂ hd
          exact ⟨by simpa [convStep, hl₁, hl₂, hdb] using this.1,
                 by simpa [convStep, hl₁, hl₂, hdb] using this.2⟩
        | other nm =>
          exact ⟨by simp [convStep, hl₁, hl₂, hdb, isOkE],
                 by simpa [convStep, hl₁, hl₂, hdb] using hd⟩
/-- The success/failure verdict of `_convert_ida_type` and the key set
of its cache depend only on the database, the fuel, the handle, and the
incoming cache's key set — not on the heap (the surrounding Python
object population). -/
theorem conv_rel (db : List FTy) : ∀ f, RecRel (convert_ida_type db f) (convert_ida_type db f) := by
  intro f
  induction f with
  | zero => intro h c₁ hp₁ c₂ hp₂ hd; exact ⟨rfl, hd⟩
  | succ f ih => exact convStep_rel db _ _ ih
/-- C1: for pointer, array and function foreign types the node is built
and inserted into the per-call cache before any recursion into children
(the recursive call receives the cache already extended with the handle
mapped to the fresh node); a cache hit returns the cached node at once,
with no state change; consequently converting a pointer to a
self-referential struct terminates and produces a closed
Pointer-Structure-Pointer-to-the-same-Structure cycle. -/
theorem convert_cache_insertion_and_cycle :
    (∀ (db : List FTy) (f h : Nat) (c : Cache) (hp : Heap) (n : Nat),
       lookupA c h = some n →
       convert_ida_type db (f + 1) h c hp = (.ok n, c, hp))
    ∧ (∀ (db : List FTy) (f h p : Nat) (c : Cache) (hp : Heap),
       db[h]? = some (.ptr p) → lookupA c h = none →
       convert_ida_type db (f + 1) h c hp =
         (match convert_ida_type db f p ((h, hp.next) :: c)
             (pushNode hp (.PointerType none)) with
          | (.ok e, c2, hp2) => (.ok hp.next, c2, setNode hp2 hp.next (.PointerType (some e)))
          | (.error err, c2, hp2) => (.error err, c2, hp2)))
    ∧ (∀ (db : List FTy) (f h el k : Nat) (c : Cache) (hp : Heap),
       db[h]? = some (.array el k) → lookupA c h = none →
       convert_ida_type db (f + 1) h c hp =
         (match convert_ida_type db f el ((h, hp.next) :: c)
             (pushNode hp (.ArrayType none k)) with
          | (.ok e, c2, hp2) => (.ok hp.next, c2, setNode hp2 hp.next (.ArrayType (some e) k))
          | (.error err, c2, hp2) => (.error err, c2, hp2)))
    ∧ (∀ (db : List FTy) (f h r : Nat) (args : List Nat) (va purge : Bool) (pk : Nat)
         (c : Cache) (hp : Heap),
       db[h]? = some (.func r args va purge pk) → lookupA c h = none →
       convert_ida_type db (f + 1) h c hp =
         (match convert_ida_type db f r ((h, hp.next) :: c)
             (pushNode hp (.FunctionType none [] false none)) with
          | (.error err, c2, hp2) => (.error err, c2, hp2)
          | (.ok rn, c2, hp2) =>
            match convList (convert_ida_type db f) args c2 hp2 with
            | (.error err, c3, hp3) => (.error err, c3, hp3)
            | (.ok ps, c3, hp3) =>
              (.ok hp.next, c3,
               setNode hp3 hp.next
                 (.FunctionType (some rn) ps va (if purge then some pk else none)))))
    ∧ (convert_ida_type cycDb 4 0 [] emptyHeap = (.ok 0, [(2, 2), (1, 1), (0, 0)], cycHeap)
       ∧ lookupA cycHeap.nodes 0 = some (.PointerType (some 1))
       ∧ lookupA cycHeap.nodes 1 = some (.StructureType [2])
       ∧ lookupA cycHeap.nodes 2 = some (.PointerType (some 1))) := by
  refine ⟨?_, ?_, ?_, ?_, by decide⟩
  · intro db f h c hp n hl
    rw [convert_ida_type_succ]
    simp [convStep, hl]
  · intro db f h p c hp hty hmiss
    rw [convert_ida_type_succ]
    simp [convStep, buildWithChild, hmiss, hty]
  · intro db f h el k c hp hty hmiss
    rw [convert_ida_type_succ]
    simp [convStep, buildWithChild, hmiss, hty]
  · intro db f h r args va purge pk c hp hty hmiss
    rw [convert_ida_type_succ]
    simp [convStep, hmiss, hty]
theorem convert_cache_insertion_and_cycle_w :
    convert_ida_type [] 1 5 [(5, 9)] emptyHeap = (.ok 9, [(5, 9)], emptyHeap) :=
  convert_cache_insertion_and_cycle.1 [] 0 5 [(5, 9)] emptyHeap 9 (by decide)
/-- C2 counterexample: primitive leaves are never cached, so converting
the very same foreign `unsigned int` handle a second time within the
same (returned, unchanged) cache allocates a fresh `IntegerType` object
(node id 1) instead of returning the node the first call built (node id
0): the two references differ. -/
theorem convert_primitive_not_interned :
    convert_ida_type [.integral u32Flags "unsigned int"] 1 0 [] emptyHeap
      = (.ok 0, [], ⟨[(0, .IntegerType 4 false)], 1⟩)
    ∧ convert_ida_type [.integral u32Flags "unsigned int"] 1 0 []
        ⟨[(0, .IntegerType 4 false)], 1⟩
      = (.ok 1, [], ⟨[(1, .IntegerType 4 false), (0, .IntegerType 4 false)], 2⟩)
    ∧ (1 : Nat) ≠ 0 := by
  refine ⟨by decide, by decide, by decide⟩
/-- C2 amended: for every primitive foreign type, convert returns the IR
leaf with exactly the matching width and signedness; a second conversion
within the same cache returns a value-equal leaf but a freshly
constructed node, not the identical reference, because primitive leaves
are returned without being inserted into the cache. -/
theorem convert_primitive_leaves : ∀ p ∈ primCases, primOk p := by decide
theorem convert_primitive_leaves_w : primOk (FTy.bool_, Node.BoolType) :=
  convert_primitive_leaves (FTy.bool_, Node.BoolType) (by decide)
theorem convert_integral_eq_first_true (fl : IntFlags) (nm : String) (h : Nat) :
    convert_integral fl nm h =
      match first_true (int_precedence fl) with
      | some (w, s) => .ok (.IntegerType w s)
      | none => .error (.unhandled ("Unhandled integral type: " ++ nm) h) := by
  rcases fl with ⟨b0, b1, b2, b3, b4, b5, b6, b7, b8, b9⟩
  cases b0 <;> cases b1 <;> cases b2 <;> cases b3 <;> cases b4 <;>
    cases b5 <;> cases b6 <;> cases b7 <;> cases b8 <;> cases b9 <;> rfl
/-- C5: on an integral foreign type not yet in the cache, convert
returns the Integer leaf of the first true predicate in the exact
precedence order uint128, int128, uint64, int64, uint32, int32, uint16,
int16, unsigned-char, signed-char, and fails `UnhandledType` when no
predicate is true. -/
theorem convert_integral_precedence (db : List FTy) (f h : Nat) (c : Cache) (hp : Heap)
    (fl : IntFlags) (nm : String)
    (hty : db[h]? = some (.integral fl nm)) (hmiss : lookupA c h = none) :
    convert_ida_type db (f + 1) h c hp =
      match first_true (int_precedence fl) with
      | some (w, s) => (.ok hp.next, c, pushNode hp (.IntegerType w s))
      | none => (.error (.unhandled ("Unhandled integral type: " ++ nm) h), c, hp) := by
  rw [convert_ida_type_succ]
  simp only [convStep, hmiss, hty]
  rw [convert_integral_eq_first_true]
  cases hft : first_true (int_precedence fl) with
  | none => simp
  | some ws => rcases ws with ⟨w, s⟩; simp
theorem convert_integral_precedence_w :
    convert_ida_type [.integral u32Flags "unsigned int"] 1 0 [] emptyHeap =
      match first_true (int_precedence u32Flags) with
      | some (w, s) => (.ok emptyHeap.next, [], pushNode emptyHeap (.IntegerType w s))
      | none => (.error (.unhandled ("Unhandled integral type: " ++ "unsigned int") 0), [], emptyHeap) :=
  convert_integral_precedence [.integral u32Flags "unsigned int"] 0 0 [] emptyHeap
    u32Flags "unsigned int" (by decide) (by decide)
/-- C7: on a complex-number foreign type not yet in the cache, convert
fails with `UnhandledType` carrying the type's diagnostic name, the
returned cache is exactly the incoming one, and it holds no entry for
the unsupported handle. -/
theorem convert_complex_unhandled (db : List FTy) (f h : Nat) (c : Cache) (hp : Heap)
    (nm : String)
    (hty : db[h]? = some (.complex_ nm)) (hmiss : lookupA c h = none) :
    convert_ida_type db (f + 1) h c hp =
      (.error (.unhandled ("Complex numbers are not yet handled: " ++ nm) h), c, hp)
    ∧ lookupA (convert_ida_type db (f + 1) h c hp).2.1 h = none := by
  have he : convert_ida_type db (f + 1) h c hp =
      (.error (.unhandled ("Complex numbers are not yet handled: " ++ nm) h), c, hp) := by
    rw [convert_ida_type_succ]
    simp [convStep, hmiss, hty]
  exact ⟨he, by rw [he]; exact hmiss⟩
theorem convert_complex_unhandled_w :
    convert_ida_type [.complex_ "_Complex double"] 1 0 [] emptyHeap =
      (.error (.unhandled ("Complex numbers are not yet handled: " ++ "_Complex double") 0),
       [], emptyHeap)
    ∧ lookupA (convert_ida_type [.complex_ "_Complex double"] 1 0 [] emptyHeap).2.1 0 = none :=
  convert_complex_unhandled [.complex_ "_Complex double"] 0 0 [] emptyHeap
    "_Complex double" (by decide) (by decide)
theorem convList_length (rec : Nat → Cache → Heap → Res) :
    ∀ (l : List Nat) (c : Cache) (hp : Heap) (ns : List Nat) (c' : Cache) (hp' : Heap),
      convList rec l c hp = (.ok ns, c', hp') → ns.length = l.length := by
  intro l
  induction l with
  | nil =>
    intro c hp ns c' hp' h
    simp only [convList, Prod.mk.injEq, Except.ok.injEq] at h
    rw [← h.1]
  | cons a rest ih =>
    intro c hp ns c' hp' h
    rcases hr : rec a c hp with ⟨e, c1, hp1⟩
    rw [convList, hr] at h
    cases e with
    | error err => simp at h
    | ok n =>
      dsimp only at h
      rcases hs : convList rec rest c1 hp1 with ⟨f, c2, hp2⟩
      rw [hs] at h
      cases f with
      | error err => simp at h
      | ok ns2 =>
        simp only [Prod.mk.injEq, Except.ok.injEq] at h
        rw [← h.1]
        simp [ih c1 hp1 ns2 c2 hp2 (by rw [hs, h.2.1, h.2.2])]
/-- C4: when convert succeeds on a function foreign type with N declared
parameters, the resulting node (the fresh id allocated at entry) is a
Function IR node whose return type is the recursively converted return
type, whose parameter list is the in-order conversion of the N declared
parameters (hence has exactly N entries), whose variadic flag equals
`is_vararg_cc`, and whose popped-bytes count is `purged_bytes` exactly
when `is_purging_cc` holds and is absent otherwise. -/
theorem convert_function_type (db : List FTy) (f h r : Nat) (args : List Nat)
    (va purge : Bool) (pk : Nat) (c : Cache) (hp : Heap) (n : Nat)
    (c' : Cache) (hp' : Heap)
    (hty : db[h]? = some (.func r args va purge pk))
    (hmiss : lookupA c h = none)
    (hres : convert_ida_type db (f + 1) h c hp = (.ok n, c', hp')) :
    n = hp.next ∧
    ∃ rn c₁ hp₁ ps c₂ hp₂,
      convert_ida_type db f r ((h, hp.next) :: c)
          (pushNode hp (.FunctionType none [] false none)) = (.ok rn, c₁, hp₁) ∧
      convList (convert_ida_type db f) args c₁ hp₁ = (.ok ps, c₂, hp₂) ∧
      ps.length = args.length ∧
      hp' = setNode hp₂ hp.next
        (.FunctionType (some rn) ps va (if purge then some pk else none)) ∧
      lookupA hp'.nodes n =
        some (.FunctionType (some rn) ps va (if purge then some pk else none)) := by
  rw [convert_ida_type_succ] at hres
  simp only [convStep, hmiss, hty] at hres
  rcases hr : convert_ida_type db f r ((h, hp.next) :: c)
      (pushNode hp (.FunctionType none [] false none)) with ⟨e, c₁, hp₁⟩
  rw [hr] at hres
  cases e with
  | error err => simp at hres
  | ok rn =>
    dsimp only at hres
    rcases hs : convList (convert_ida_type db f) args c₁ hp₁ with ⟨e2, c₂, hp₂⟩
    rw [hs] at hres
    cases e2 with
    | error err => simp at hres
    | ok ps =>
      simp only [Prod.mk.injEq, Except.ok.injEq] at hres
      obtain ⟨hn, hc, hhp⟩ := hres
      have hkey0 : (lookupA (pushNode hp (.FunctionType none [] false none)).nodes hp.next).isSome
          = true := by
        simp [pushNode, lookupA]
      have hkey1 : (lookupA hp₁.nodes hp.next).isSome = true := by
        have := conv_mono db f r ((h, hp.next) :: c)
          (pushNode hp (.FunctionType none [] false none))
        rw [hr] at this
        exact this hp.next hkey0
      have hkey2 : (lookupA hp₂.nodes hp.next).isSome = true := by
        have := convList_mono (convert_ida_type db f) (conv_mono db f) args c₁ hp₁
        rw [hs] at this
        exact this hp.next hkey1
      subst hn
      refine ⟨rfl, rn, c₁, hp₁, ps, c₂, hp₂, rfl, hs,
        convList_length _ args c₁ hp₁ ps c₂ hp₂ hs, hhp.symm, ?_⟩
      rw [← hhp]
      exact lookupA_setNode_self hp₂ hp.next _ hkey2
theorem convert_function_type_w :
    (0 = emptyHeap.next) ∧
    ∃ rn c₁ hp₁ ps c₂ hp₂,
      convert_ida_type dbFunc 1 1 ((0, emptyHeap.next) :: [])
          (pushNode emptyHeap (.FunctionType none [] false none)) = (.ok rn, c₁, hp₁) ∧
      convList (convert_ida_type dbFunc 1) [1] c₁ hp₁ = (.ok ps, c₂, hp₂) ∧
      ps.length = [1].length ∧
      funcHeapOut = setNode hp₂ emptyHeap.next
        (.FunctionType (some rn) ps true (if true then some 8 else none)) ∧
      lookupA funcHeapOut.nodes 0 =
        some (.FunctionType (some rn) ps true (if true then some 8 else none)) :=
  convert_function_type dbFunc 1 0 1 [1] true true 8 [] emptyHeap 0 [(0, 0)]
    funcHeapOut (by decide) (by decide) (by decide)
/-- C9: `get_type` is the identity on values that are already Type IR
nodes (same reference, no heap change), hence idempotent on every
accepted input whose resolution succeeds, and on a Function entity it
returns the entity's stored function type unchanged, performing no
conversion (the heap is untouched). -/
theorem get_type_identity :
    (∀ (env : IdaEnv) (fuel n : Nat) (fh : FuncHeap) (hp : Heap),
       get_type env fuel (.typ n) fh hp = (.ok n, hp))
    ∧ (∀ (env : IdaEnv) (fuel : Nat) (arg : GTArg) (fh : FuncHeap) (hp : Heap)
         (res : Nat) (hp' : Heap),
       get_type env fuel arg fh hp = (.ok res, hp') →
       get_type env fuel (.typ res) fh hp' = (.ok res, hp'))
    ∧ (∀ (env : IdaEnv) (fuel f : Nat) (fh : FuncHeap) (hp : Heap) (ent : FuncEnt),
       lookupA fh.ents f = some ent →
       get_type env fuel (.func f) fh hp = (.ok ent.ftype, hp)) := by
  refine ⟨fun env fuel n fh hp => rfl, fun env fuel arg fh hp res hp' _ => rfl, ?_⟩
  intro env fuel f fh hp ent hl
  simp [get_type, hl]
theorem get_type_identity_w :
    get_type ⟨[], [], []⟩ 1 (.func 0) fhX emptyHeap = (.ok 7, emptyHeap) :=
  get_type_identity.2.2 ⟨[], [], []⟩ 1 0 fhX emptyHeap ⟨Arch.X86Arch, 10, 7⟩ (by decide)
/-- C10: when `get_type` is given an address for which no non-empty
foreign type can be recovered, it returns a fresh Void node exactly when
the address is falsy (`0`) and raises `UnhandledTypeException` for every
other address; it never returns a non-Void approximation there. -/
theorem get_type_addr_fallback (env : IdaEnv) (fuel a : Nat) (fh : FuncHeap) (hp : Heap)
    (hnone : lookupA env.tinfos a = none) :
    (a = 0 → get_type env fuel (.addr a) fh hp = (.ok hp.next, pushNode hp .VoidType))
    ∧ (a ≠ 0 → get_type env fuel (.addr a) fh hp =
        (.error (.unhandled "Unrecognized type passed to Type." a), hp)) := by
  constructor
  · intro h0
    subst h0
    simp [get_type, hnone]
  · intro hne
    simp [get_type, hnone, hne]
theorem get_type_addr_fallback_w :
    get_type ⟨[], [], []⟩ 1 (.addr 0) fhX emptyHeap = (.ok emptyHeap.next, pushNode emptyHeap .VoidType)
    ∧ get_type ⟨[], [], []⟩ 1 (.addr 5) fhX emptyHeap =
        (.error (.unhandled "Unrecognized type passed to Type." 5), emptyHeap) :=
  ⟨(get_type_addr_fallback ⟨[], [], []⟩ 1 0 fhX emptyHeap (by decide)).1 rfl,
   (get_type_addr_fallback ⟨[], [], []⟩ 1 5 fhX emptyHeap (by decide)).2 (by decide)⟩
theorem get_function_eq_locate (env : IdaEnv) (arch : Arch) (fuel a : Nat)
    (fh : FuncHeap) (reg : Registry) (hp : Heap) :
    get_function env arch fuel a fh reg hp =
      match locate env a with
      | none =>
        (.error (.invalidFunction "No function defined at or containing address"),
         fh, reg, hp)
      | some f =>
        match get_type env fuel (.addr f.1) fh hp with
        | (.error (.unhandled msg _), hp1) =>
          (.error (.invalidFunction
              ("Could not assign type to function at address: " ++ msg)),
           fh, reg, hp1)
        | (.error e, hp1) => (.error (.raised e), fh, reg, hp1)
        | (.ok t, hp1) =>
          match lookupA reg f.1 with
          | some fid => (.ok fid, fh, reg, hp1)
          | none =>
            (.ok fh.next, ⟨(fh.next, ⟨arch, f.1, t⟩) :: fh.ents, fh.next + 1⟩,
             (f.1, fh.next) :: reg, hp1) := by
  unfold get_function locate
  cases hf : ida_get_func env a with
  | some f =>
    dsimp only
    by_cases hc : func_contains f a
    · simp [hc]
    · simp [hc]
  | none =>
    dsimp only
    cases hpv : ida_get_prev_func env a with
    | some f =>
      by_cases hc : func_contains f a
      · simp [hc]
      · simp [hc]
    | none => rfl
/-- C3: `get_function` raises `InvalidFunction` exactly when the
region-location phase (exact containment, then the at-or-before
fallback, then the containment check) finds no containing region, or
when converting the region's start-address type fails with
`UnhandledType` (which is wrapped into `InvalidFunction`); on success
the returned Function entity's address is the containing region's start
address, whichever interior address was requested.  The two hypotheses
say that type conversion at the located start fails only with the real
`UnhandledTypeException` (not a fuel/handle artifact of the embedding)
and that pre-existing registry entries are well-formed. -/
theorem get_function_invalid_iff (env : IdaEnv) (arch : Arch) (fuel a : Nat)
    (fh : FuncHeap) (reg : Registry) (hp : Heap)
    (hart : ∀ r, locate env a = some r →
       ∀ e, (get_type env fuel (.addr r.1) fh hp).1 = .error e →
         ∃ msg k, e = .unhandled msg k)
    (hreg : ∀ a' fid, lookupA reg a' = some fid →
       ∃ ent, lookupA fh.ents fid = some ent ∧ ent.address = a') :
    ((∃ msg, (get_function env arch fuel a fh reg hp).1 = .error (.invalidFunction msg)) ↔
      (locate env a = none ∨
       ∃ r msg k, locate env a = some r ∧
         (get_type env fuel (.addr r.1) fh hp).1 = .error (.unhandled msg k)))
    ∧ (∀ fid, (get_function env arch fuel a fh reg hp).1 = .ok fid →
        ∃ r ent, locate env a = some r ∧
          lookupA (get_function env arch fuel a fh reg hp).2.1.ents fid = some ent ∧
          ent.address = r.1) := by
  rw [get_function_eq_locate]
  cases hl : locate env a with
  | none =>
    dsimp only
    refine ⟨⟨fun _ => Or.inl rfl,
             fun _ => ⟨"No function defined at or containing address", rfl⟩⟩, ?_⟩
    intro fid hfid
    simp at hfid
  | some r =>
    dsimp only
    rcases hg : get_type env fuel (.addr r.1) fh hp with ⟨e, hp1⟩
    cases e with
    | error err =>
      obtain ⟨msg, k, hek⟩ := hart r hl err (by rw [hg])
      subst hek
      dsimp only
      refine ⟨⟨fun _ => Or.inr ⟨r, msg, k, rfl, by rw [hg]⟩,
               fun _ => ⟨"Could not assign type to function at address: " ++ msg, rfl⟩⟩, ?_⟩
      intro fid hfid
      simp at hfid
    | ok t =>
      dsimp only
      refine ⟨⟨?_, ?_⟩, ?_⟩
      · rintro ⟨msg, habs⟩
        cases hlr : lookupA reg r.1 with
        | some fid' => rw [hlr] at habs; simp at habs
        | none => rw [hlr] at habs; simp at habs
      · rintro (hnone | ⟨r', msg, k, hr', herr⟩)
        · exact absurd hnone (by simp)
        · have hrr : r' = r := by injection hr' with h'; exact h'.symm
          subst hrr
          rw [hg] at herr
          simp at herr
      · intro fid hfid
        cases hlr : lookupA reg r.1 with
        | some fid' =>
          rw [hlr] at hfid
          dsimp only at hfid ⊢
          simp only [Except.ok.injEq] at hfid
          obtain ⟨ent, hee, hea⟩ := hreg r.1 fid' hlr
          subst hfid
          exact ⟨r, ent, rfl, hee, hea⟩
        | none =>
          rw [hlr] at hfid
          dsimp only at hfid ⊢
          simp only [Except.ok.injEq] at hfid
          subst hfid
          refine ⟨r, ⟨arch, r.1, t⟩, rfl, ?_, rfl⟩
          simp [lookupA]
theorem get_function_invalid_iff_w :
    ((∃ msg, (get_function envW .AMD64Arch 1 15 fh0 [] emptyHeap).1 =
        .error (.invalidFunction msg)) ↔
      (locate envW 15 = none ∨
       ∃ r msg k, locate envW 15 = some r ∧
         (get_type envW 1 (.addr r.1) fh0 emptyHeap).1 = .error (.unhandled msg k)))
    ∧ (∀ fid, (get_function envW .AMD64Arch 1 15 fh0 [] emptyHeap).1 = .ok fid →
        ∃ r ent, locate envW 15 = some r ∧
          lookupA (get_function envW .AMD64Arch 1 15 fh0 [] emptyHeap).2.1.ents fid
            = some ent ∧
          ent.address = r.1) :=
  get_function_invalid_iff envW .AMD64Arch 1 15 fh0 [] emptyHeap
    (by
      intro r hr e he
      have hcomp : locate envW 15 = some (10, 20) := by decide
      rw [hcomp] at hr
      injection hr with hr2
      subst hr2
      rw [show (get_type envW 1 (GTArg.addr (10, 20).1) fh0 emptyHeap).1
          = Except.ok 0 by decide] at he
      exact Except.noConfusion he)
    (by
      intro a' fid hf
      simp [lookupA] at hf)
theorem get_type_addr_ok_stable (env : IdaEnv) (fuel a : Nat) (fh : FuncHeap) (hp : Heap)
    (t : Nat) (hp1 : Heap) (fh₂ : FuncHeap) (hpB : Heap)
    (h : get_type env fuel (.addr a) fh hp = (.ok t, hp1)) :
    ∃ t₂ hp₂, get_type env fuel (.addr a) fh₂ hpB = (.ok t₂, hp₂) := by
  cases hl : lookupA env.tinfos a with
  | none =>
    by_cases h0 : a = 0
    · subst h0
      exact ⟨hpB.next, pushNode hpB .VoidType, by simp [get_type, hl]⟩
    · simp [get_type, hl, h0] at h
  | some hdl =>
    have hok : isOkE (convert_ida_type env.db fuel hdl [] hp).1 = true := by
      rcases hcv : convert_ida_type env.db fuel hdl [] hp with ⟨e, cc, hh⟩
      simp only [get_type, hl, hcv] at h
      cases e with
      | error err => simp at h
      | ok n => rfl
    have hrel := (conv_rel env.db fuel hdl [] hp [] hpB rfl).1
    rw [hok] at hrel
    rcases hcv₂ : convert_ida_type env.db fuel hdl [] hpB with ⟨e₂, cc₂, hh₂⟩
    rw [hcv₂] at hrel
    cases e₂ with
    | error err => simp [isOkE] at hrel
    | ok t₂ => exact ⟨t₂, hh₂, by simp [get_type, hl, hcv₂]⟩
/-- C8: after a successful resolution has stored a Function entity in
the registry, resolving the same address again against the resulting
states (the entity still live, no purge having happened) returns the
very same entity id, with the function space and registry unchanged —
no new Function is constructed. -/
theorem get_function_memoized (env : IdaEnv) (arch : Arch) (fuel a : Nat)
    (fh : FuncHeap) (reg : Registry) (hp : Heap) (fid : Nat)
    (fh₁ : FuncHeap) (reg₁ : Registry) (hp₁ : Heap)
    (h1 : get_function env arch fuel a fh reg hp = (.ok fid, fh₁, reg₁, hp₁)) :
    ∃ hp₂, get_function env arch fuel a fh₁ reg₁ hp₁ = (.ok fid, fh₁, reg₁, hp₂) := by
  rw [get_function_eq_locate] at h1
  rw [get_function_eq_locate]
  cases hl : locate env a with
  | none =>
    rw [hl] at h1
    simp at h1
  | some r =>
    rw [hl] at h1
    dsimp only at h1 ⊢
    rcases hg : get_type env fuel (.addr r.1) fh hp with ⟨e, hpx⟩
    rw [hg] at h1
    cases e with
    | error err => cases err <;> simp at h1
    | ok t =>
      dsimp only at h1
      obtain ⟨t₂, hp₂, hg₂⟩ := get_type_addr_ok_stable env fuel r.1 fh hp t hpx fh₁ hp₁ hg
      rw [hg₂]
      dsimp only
      cases hr : lookupA reg r.1 with
      | some fid' =>
        rw [hr] at h1
        dsimp only at h1
        simp only [Prod.mk.injEq, Except.ok.injEq] at h1
        obtain ⟨hfid, hfh, hreg, hhp⟩ := h1
        subst hfid hfh hreg
        rw [hr]
        exact ⟨hp₂, rfl⟩
      | none =>
        rw [hr] at h1
        dsimp only at h1
        simp only [Prod.mk.injEq, Except.ok.injEq] at h1
        obtain ⟨hfid, hfh, hreg, hhp⟩ := h1
        have hlr₁ : lookupA reg₁ r.1 = some fh.next := by
          rw [← hreg]
          simp [lookupA]
        rw [hlr₁]
        refine ⟨hp₂, ?_⟩
        rw [hfid]
theorem get_function_memoized_w :
    ∃ hp₂, get_function envW .AMD64Arch 1 15 fhW regW hpW = (.ok 0, fhW, regW, hp₂) :=
  get_function_memoized envW .AMD64Arch 1 15 fh0 [] emptyHeap 0 fhW regW hpW (by decide)
/-- C6 (code bug): on a host whose register names do not include both
"ax" and "xmm0" — in particular every environment matching none of the
known variants — line 66 of the source evaluates `info.procName` with
`info` unbound, so Python raises `NameError`, not the
`UnhandledArchitectureType` the spec promises; `get_arch` propagates the
same `NameError`. -/
theorem guess_architecture_name_error :
    guess_architecture mipsEnv = .error (.nameError "info")
    ∧ get_arch mipsEnv = .error (.nameError "info") := by
  exact ⟨by decide, by decide⟩
